import Mathlib

/-!
# Verification of the managed-opfs catalog/entity coordination layer

Shallow embedding of the core of the `managed-opfs` repository:

* `Catalogdb` (src/catalogdb.ts): the relational catalog of file metadata,
  modelled as a list of rows with the operations `create`, `read`,
  `readEntityId`, `update`, `delete` and `list` translated statement by
  statement from the SQL the source issues.
* `ManagedOpfs` (the manager facade): `writeFile`, `readFile`,
  `overwriteFile`, `removeFile`, modelled as state transformers over a
  state holding the catalog, the blob directory (a finite map from entity
  ids to byte lists) and the fresh-id counter.  Each operation also emits
  a trace of the blob/catalog effects it performed, in order.
* The two stream classes' `write` methods (writable-file-stream.ts,
  overwritable-file-stream.ts).
* The `mutex` / `mutex.readonly` decorator scheduler (src/mutex.ts),
  modelled as a small-step transition system faithful to the queue/steps
  promise machinery of the source.

External collaborators (MD5, the `mime` lookup table, the JSON codec and
the full-text-search string hook) are parameters of the model, bundled in
`Mopfs.Cfg`, exactly as the specification declares them out of scope.
Entity ids are drawn from a counter, modelling the guarantee that the
UUIDv4 generator never hands out an id already in use (`Mopfs.Fresh`).

Byte strings are `List Nat`; string length is modelled by `String.length`
(the source counts UTF-16 code units via `value.length`).
-/

namespace Mopfs

/-- The error surface of the library (error/errors.ts): `MopfsError`,
`MopfsFileNotFoundError`, `MopfsFileExistsError`, plus the valibot
size-validation failure and generic engine errors. -/
inductive Err where
  | notOpen
  | fileNotFound (path : String)
  | fileExists (path : String)
  | sizeLimit
  | generic (msg : String)
  deriving DecidableEq, Repr

/-- External collaborators of the core, passed in at construction
(ManagedOpfsOptions): the MD5 hasher (hash-wasm), the `mime` lookup,
the JSON stringifier and the `toFullTextSearchString` hook, together
with the two size limits and the bucket name. -/
structure Cfg where
  bucketName : String
  maxDescriptionSize : Nat
  maxMetadataJsonSize : Nat
  toFts : String → String
  jsonStringify : String → String
  mimeGet : String → Option String
  md5 : List Nat → String

/-- Split a character list at every `/`, the splitting
`Path#segments` performs on the UTF-8 path buffer (path.ts). -/
def splitSegs : List Char → List String
  | [] => [""]
  | c :: cs =>
      let rest := splitSegs cs
      if c = '/' then "" :: rest
      else
        match rest with
        | [] => [String.mk [c]]
        | s :: ss => String.mk (c :: s.data) :: ss

/-- `Path#segments`: the source splits the UTF-8 path buffer on `/`
(path.ts). -/
def segmentsOf (p : String) : List String :=
  splitSegs p.data

/-- `Path#basename`: the last path segment (path.ts). -/
def basenameOf (p : String) : String :=
  (segmentsOf p).getLastD ""

/-- `getMimeType(path)` (get-mime-type.ts): `mime.getType(path) ??
"application/octet-stream"`. -/
def getMimeTypeD (cfg : Cfg) (path : String) : String :=
  (cfg.mimeGet path).getD "application/octet-stream"

/-- `newSizeLimitedString(limit)` (schemas.ts): accepts a string iff its
length is at most `⌊limit / 2⌋`. -/
def sizeLimited (limit : Nat) (s : String) : Except Err String :=
  if s.length ≤ limit / 2 then .ok s else .error .sizeLimit

/-- `parseDescRaw` (catalogdb.ts constructor): a description is bounded by
`maxDescriptionSize`. -/
def parseDescRaw (cfg : Cfg) (s : String) : Except Err String :=
  sizeLimited cfg.maxDescriptionSize s

/-- `#toFtsStr` (catalogdb.ts constructor): validate the raw description,
apply `toFullTextSearchString`, and validate the result against the
doubled limit `maxDescriptionSize * 2`. -/
def toFtsStr (cfg : Cfg) (s : String) : Except Err String :=
  match parseDescRaw cfg s with
  | .error e => .error e
  | .ok d => sizeLimited (cfg.maxDescriptionSize * 2) (cfg.toFts d)

/-- `#metaJson.stringify` (catalogdb.ts constructor): stringify the
metadata and validate the result against `maxMetadataJsonSize`. -/
def stringifyMeta (cfg : Cfg) (m : String) : Except Err String :=
  sizeLimited cfg.maxMetadataJsonSize (cfg.jsonStringify m)

/-- One row of the `file_v0` table (catalogdb.ts `CREATE TABLE`). -/
structure FileRow where
  fullpath : String
  pathSeg : List String
  entityid : Nat
  hashMd5 : String
  mimeTyp : String
  contLen : Nat
  lastMod : Nat
  descRaw : Option String
  descFts : Option String
  metaJs : Option String
  deriving DecidableEq, Repr

/-- The catalog database state: the contents of `file_v0`. -/
structure CatalogState where
  rows : List FileRow
  deriving DecidableEq, Repr

namespace Catalog

/-- Input of `Catalogdb.create` (`CreateInput`).  `description` and
`metadata` collapse `undefined` and `null` to `none`, as `create`'s
destructuring defaults do. -/
structure CreateInput where
  filePath : String
  entityId : Nat
  checksum : String
  mimeType : Option String
  fileSize : Nat
  description : Option String
  metadata : Option String

/-- `create`'s `desc_fts` computation: `null` description stays `null`,
otherwise the validated full-text-search string. -/
def descCreateField (cfg : Cfg) : Option String → Except Err (Option String)
  | none => .ok none
  | some s =>
      match toFtsStr cfg s with
      | .ok f => .ok (some f)
      | .error e => .error e

/-- `create`'s `meta_js` computation: `null` metadata stays `null`,
otherwise the validated stringification. -/
def metaCreateField (cfg : Cfg) : Option String → Except Err (Option String)
  | none => .ok none
  | some m =>
      match stringifyMeta cfg m with
      | .ok j => .ok (some j)
      | .error e => .error e

/-- `Catalogdb.create`: compute `desc_fts` and `meta_js` (validating
sizes), then `INSERT`; a duplicate `fullpath` primary key surfaces as
`FileExists`, a duplicate `entityid` unique-index hit as a generic
constraint error. -/
def create (cfg : Cfg) (st : CatalogState) (inp : CreateInput) (now : Nat) :
    Except Err CatalogState :=
  match descCreateField cfg inp.description with
  | .error e => .error e
  | .ok descFts =>
      match metaCreateField cfg inp.metadata with
      | .error e => .error e
      | .ok metaJs =>
          if st.rows.any (fun r => r.fullpath = inp.filePath) then
            .error (.fileExists inp.filePath)
          else if st.rows.any (fun r => r.entityid = inp.entityId) then
            .error (.generic "Constraint Error: duplicate entityid")
          else
            .ok ⟨st.rows ++ [{
              fullpath := inp.filePath
              pathSeg := segmentsOf inp.filePath
              entityid := inp.entityId
              hashMd5 := inp.checksum
              mimeTyp := inp.mimeType.getD (getMimeTypeD cfg (basenameOf inp.filePath))
              contLen := inp.fileSize
              lastMod := now
              descRaw := inp.description
              descFts := descFts
              metaJs := metaJs }]⟩

/-- Result of `Catalogdb.read`. -/
structure ReadOutput where
  entityId : Nat
  checksum : String
  mimeType : String
  fileSize : Nat
  lastModified : Nat
  deriving DecidableEq, Repr

/-- `Catalogdb.read`: `SELECT ... WHERE fullpath = p`; no first row means
`FileNotFound`. -/
def read (st : CatalogState) (p : String) : Except Err ReadOutput :=
  match st.rows.find? (fun r => r.fullpath = p) with
  | none => .error (.fileNotFound p)
  | some r => .ok ⟨r.entityid, r.hashMd5, r.mimeTyp, r.contLen, r.lastMod⟩

/-- `Catalogdb.readEntityId`: the `entityid` projection of `read`. -/
def readEntityId (st : CatalogState) (p : String) : Except Err Nat :=
  match st.rows.find? (fun r => r.fullpath = p) with
  | none => .error (.fileNotFound p)
  | some r => .ok r.entityid

/-- `Catalogdb.delete`: `DELETE ... WHERE fullpath = p`; zero affected
rows means `FileNotFound`. -/
def delete (st : CatalogState) (p : String) : Except Err CatalogState :=
  if st.rows.any (fun r => r.fullpath = p) then
    .ok ⟨st.rows.filter (fun r => ¬ r.fullpath = p)⟩
  else
    .error (.fileNotFound p)

/-- Input of `Catalogdb.update` (`UpdateInput`).  For `description` and
`metadata`, `none` is TypeScript `undefined` (field untouched) and
`some none` is `null` (field cleared). -/
structure UpdateInput where
  filePath : String
  newEntityId : Option Nat
  oldEntityId : Option Nat
  checksum : Option String
  mimeType : Option String
  fileSize : Option Nat
  description : Option (Option String)
  metadata : Option (Option String)

/-- The `update` guard: all option fields `undefined`. -/
def UpdateInput.allUndefined (inp : UpdateInput) : Bool :=
  inp.checksum = none && inp.fileSize = none && inp.metadata = none &&
  inp.mimeType = none && inp.description = none &&
  inp.newEntityId = none && inp.oldEntityId = none

/-- The `desc_raw`/`desc_fts` SET fragment of `update`: `none` when the
field is untouched, otherwise the new pair of values (validated). -/
def updateDescField (cfg : Cfg) (d : Option (Option String)) :
    Except Err (Option (Option String × Option String)) :=
  match d with
  | none => .ok none
  | some none => .ok (some (none, none))
  | some (some s) =>
      match toFtsStr cfg s with
      | .ok f => .ok (some (some s, some f))
      | .error e => .error e

/-- The `meta_js` SET fragment of `update`: `none` when the field is
untouched, otherwise the new value (validated). -/
def updateMetaField (cfg : Cfg) (m : Option (Option String)) :
    Except Err (Option (Option String)) :=
  match m with
  | none => .ok none
  | some none => .ok (some none)
  | some (some s) =>
      match stringifyMeta cfg s with
      | .ok j => .ok (some (some j))
      | .error e => .error e

/-- The WHERE predicate of `update`: `fullpath = p` plus, when
`oldEntityId` is provided, `AND entityid = oldEntityId`. -/
def updMatches (inp : UpdateInput) (r : FileRow) : Bool :=
  r.fullpath = inp.filePath &&
    (match inp.oldEntityId with
     | none => true
     | some o => r.entityid = o)

/-- Apply the SET clause of `update` to one matched row. -/
def applyUpdate (inp : UpdateInput)
    (descField : Option (Option String × Option String))
    (metaField : Option (Option String)) (now : Nat) (r : FileRow) : FileRow :=
  { r with
    lastMod := now
    entityid := inp.newEntityId.getD r.entityid
    hashMd5 := inp.checksum.getD r.hashMd5
    mimeTyp := inp.mimeType.getD r.mimeTyp
    contLen := inp.fileSize.getD r.contLen
    descRaw := match descField with | none => r.descRaw | some (d, _) => d
    descFts := match descField with | none => r.descFts | some (_, f) => f
    metaJs := match metaField with | none => r.metaJs | some j => j }

/-- `Catalogdb.update`: if every option field is `undefined`, only check
the row exists.  Otherwise build the partial UPDATE (validating the
description and metadata first, as the source does while assembling the
SET fragments), constrain the WHERE clause with `entityid = oldEntityId`
when provided, fail `FileNotFound` on zero affected rows, and otherwise
write the matched row (a `newEntityId` colliding with another row's
`entityid` trips the unique index). -/
def update (cfg : Cfg) (st : CatalogState) (inp : UpdateInput) (now : Nat) :
    Except Err CatalogState :=
  if inp.allUndefined then
    if st.rows.any (fun r => r.fullpath = inp.filePath) then
      .ok st
    else
      .error (.fileNotFound inp.filePath)
  else
    match updateDescField cfg inp.description with
    | .error e => .error e
    | .ok descField =>
        match updateMetaField cfg inp.metadata with
        | .error e => .error e
        | .ok metaField =>
            if st.rows.any (updMatches inp) then
              let write : CatalogState := ⟨st.rows.map (fun r =>
                if updMatches inp r then applyUpdate inp descField metaField now r else r)⟩
              match inp.newEntityId with
              | some nid =>
                  if st.rows.any (fun r => ¬ updMatches inp r ∧ r.entityid = nid) then
                    .error (.generic "Constraint Error: duplicate entityid")
                  else
                    .ok write
              | none => .ok write
            else
              .error (.fileNotFound inp.filePath)

/-- `ORDER BY name ASC | DESC` selector. -/
inductive OrderBy where
  | asc
  | desc
  deriving DecidableEq, Repr

/-- Input of `Catalogdb.list` (`ListInput`). -/
structure ListInput where
  dirPath : List String
  limit : Option Nat
  offset : Option Nat
  orderByName : Option OrderBy
  deriving DecidableEq, Repr

/-- One result row of `list`. -/
structure ListItem where
  isFile : Bool
  name : String
  deriving DecidableEq, Repr

/-- Insertion step of the sort modelling `ORDER BY`. -/
def insertLe {α : Type} (le : α → α → Bool) (x : α) : List α → List α
  | [] => [x]
  | y :: ys => if le x y then x :: y :: ys else y :: insertLe le x ys

/-- Sort modelling `ORDER BY` (on the distinct rows the keys are unique,
so any correct sort yields the SQL result). -/
def sortLe {α : Type} (le : α → α → Bool) : List α → List α
  | [] => []
  | x :: xs => insertLe le x (sortLe le xs)

/-- `SELECT DISTINCT` deduplication, keeping first occurrences. -/
def dedupAux {α : Type} [DecidableEq α] (seen : List α) : List α → List α
  | [] => []
  | x :: xs =>
      if x ∈ seen then dedupAux seen xs
      else x :: dedupAux (x :: seen) xs

/-- `SELECT DISTINCT` deduplication. -/
def dedup {α : Type} [DecidableEq α] (l : List α) : List α :=
  dedupAux [] l

/-- The comparison of `ORDER BY is_file ASC, name {ASC|DESC}`:
directories (`is_file = false`) before files, then by name. -/
def listLe (ord : OrderBy) (a b : String × Bool) : Bool :=
  if a.2 = b.2 then
    match ord with
    | .asc => a.1 ≤ b.1
    | .desc => b.1 ≤ a.1
  else
    a.2 = false

/-- The unpaginated result of `list`: the `WHERE` filter (at least
`|dirPath| + 1` segments, componentwise directory match), the projection
to `(name, is_file)`, `DISTINCT`, and `ORDER BY`. -/
def listAll (st : CatalogState) (dirPath : List String) (ord : OrderBy) :
    List (String × Bool) :=
  sortLe (listLe ord) (dedup
    ((st.rows.filter (fun r =>
        dirPath.length + 1 ≤ r.pathSeg.length &&
        r.pathSeg.take dirPath.length = dirPath)).map
      (fun r => (r.pathSeg.getD dirPath.length "",
                 decide (r.pathSeg.length = dirPath.length + 1)))))

/-- `Catalogdb.list`: the unpaginated result with `LIMIT`/`OFFSET`
applied; the source appends a `LIMIT` clause only when `limit` is defined
and positive, and an `OFFSET` clause only when the offset is positive
(SQL applies the offset before the limit). -/
def list (st : CatalogState) (inp : ListInput) : List ListItem :=
  let all := listAll st inp.dirPath (inp.orderByName.getD .asc)
  let paged :=
    match inp.limit with
    | some l => if 0 < l then ((all.drop (inp.offset.getD 0)).take l) else all.drop (inp.offset.getD 0)
    | none => all.drop (inp.offset.getD 0)
  paged.map (fun nf => ⟨nf.2, nf.1⟩)

end Catalog

/-- The blob/catalog effects a manager operation performs, in execution
order: blob writes (`getFileHandle(create) + write + close`), blob
removals (`removeEntry`), blob opens, and the catalog statements. -/
inductive Ev where
  | blobCreate (id : Nat)
  | blobRemove (id : Nat)
  | blobOpen (id : Nat)
  | catInsert (path : String)
  | catUpdate (path : String)
  | catDelete (path : String)
  | catRead (path : String)
  deriving DecidableEq, Repr

/-- The `ManagedOpfs` state: the `opened` handle flag, the catalog, the
`main/` blob directory (entity id, bytes), the fresh-id counter modelling
the UUID generator, and the clock read by `Date.now()`. -/
structure MState where
  opened : Bool
  catalog : CatalogState
  blobs : List (Nat × List Nat)
  nextId : Nat
  now : Nat
  deriving DecidableEq, Repr

/-- Look a blob up by entity id. -/
def blobFind (bs : List (Nat × List Nat)) (id : Nat) : Option (List Nat) :=
  (bs.find? (fun b => b.1 = id)).map (fun b => b.2)

/-- `removeEntry` on the blob directory. -/
def blobErase (bs : List (Nat × List Nat)) (id : Nat) : List (Nat × List Nat) :=
  bs.filter (fun b => ¬ b.1 = id)

/-- The UUID generator never returns an id already present in the blob
directory or the catalog: ids in use are strictly below the counter. -/
def Fresh (st : MState) : Prop :=
  (∀ b ∈ st.blobs, b.1 < st.nextId) ∧ ∀ r ∈ st.catalog.rows, r.entityid < st.nextId

instance (st : MState) : Decidable (Fresh st) := by
  unfold Fresh; infer_instance

/-- `FileIdent` (file-ident.ts). -/
structure FileIdent where
  bucketName : String
  filePath : String
  deriving DecidableEq, Repr

/-- The `File` value `readFile` returns (file.ts): the side-metadata plus
the blob content backing `stream()` / `bytes()` / `text()`. -/
structure FileVal where
  checksum : String
  mimeType : String
  fileSize : Nat
  lastModified : Nat
  content : List Nat
  deriving DecidableEq, Repr

/-- `WriteFileOptions`: `description`/`metadata` collapse `undefined` and
`null` (both default to `null` in `Catalogdb.create`). -/
structure WriteOpts where
  mimeType : Option String
  description : Option String
  metadata : Option String
  deriving DecidableEq, Repr

/-- `OverwriteFileOptions`: every field defaults to `undefined`; for
`description`/`metadata` the value `some none` is an explicit `null`. -/
structure OverwriteOpts where
  data : Option (List Nat)
  mimeType : Option String
  description : Option (Option String)
  metadata : Option (Option String)

/-- The `overwriteFile` early-return guard: all option fields
`undefined`. -/
def OverwriteOpts.allUndefined (o : OverwriteOpts) : Bool :=
  o.data = none && o.metadata = none && o.mimeType = none && o.description = none

/-- `ManagedOpfs.writeFile`: hash the data, allocate an entity id, write
the blob, then `catalog.create`; on catalog failure remove the staged
blob and rethrow the catalog error. -/
def writeFile (cfg : Cfg) (st : MState) (p : String) (d : List Nat)
    (opts : WriteOpts) : Except Err FileIdent × MState × List Ev :=
  if ¬ st.opened then
    (.error .notOpen, st, [])
  else
    let checksum := cfg.md5 d
    let eid := st.nextId
    let st1 : MState := { st with blobs := st.blobs ++ [(eid, d)], nextId := st.nextId + 1 }
    match Catalog.create cfg st1.catalog
        ⟨p, eid, checksum, opts.mimeType, d.length, opts.description, opts.metadata⟩
        st1.now with
    | .error e =>
        (.error e, { st1 with blobs := blobErase st1.blobs eid },
         [.blobCreate eid, .blobRemove eid])
    | .ok c =>
        (.ok ⟨cfg.bucketName, p⟩, { st1 with catalog := c },
         [.blobCreate eid, .catInsert p])

/-- `ManagedOpfs.readFile`: `catalog.read`, open the blob; when the blob
is missing, delete the dangling catalog row (a failure of that cleanup is
only logged) and throw — the source throws `MopfsFileExistsError` here. -/
def readFile (st : MState) (p : String) : Except Err FileVal × MState × List Ev :=
  if ¬ st.opened then
    (.error .notOpen, st, [])
  else
    match Catalog.read st.catalog p with
    | .error e => (.error e, st, [.catRead p])
    | .ok out =>
        match blobFind st.blobs out.entityId with
        | some bytes =>
            (.ok ⟨out.checksum, out.mimeType, out.fileSize, out.lastModified, bytes⟩,
             st, [.catRead p, .blobOpen out.entityId])
        | none =>
            match Catalog.delete st.catalog p with
            | .ok c =>
                (.error (.fileExists p), { st with catalog := c },
                 [.catRead p, .catDelete p])
            | .error _ =>
                (.error (.fileExists p), st, [.catRead p])

/-- `ManagedOpfs.overwriteFile`: all options `undefined` returns the
ident untouched; no `data` delegates to a metadata-only `catalog.update`;
with `data` it reads the old entity id, stages a new blob, runs the
guarded `catalog.update` (`newEntityId`/`oldEntityId`), removes the new
blob on failure and the old blob on success (old-blob cleanup failures
are only logged). -/
def overwriteFile (cfg : Cfg) (st : MState) (p : String) (opts : OverwriteOpts) :
    Except Err FileIdent × MState × List Ev :=
  if ¬ st.opened then
    (.error .notOpen, st, [])
  else if opts.allUndefined then
    (.ok ⟨cfg.bucketName, p⟩, st, [])
  else
    match opts.data with
    | none =>
        match Catalog.update cfg st.catalog
            ⟨p, none, none, none, opts.mimeType, none, opts.description, opts.metadata⟩
            st.now with
        | .ok c => (.ok ⟨cfg.bucketName, p⟩, { st with catalog := c }, [.catUpdate p])
        | .error e => (.error e, st, [.catUpdate p])
    | some view =>
        match Catalog.readEntityId st.catalog p with
        | .error e => (.error e, st, [.catRead p])
        | .ok oldId =>
            let newId := st.nextId
            let checksum := cfg.md5 view
            let st1 : MState :=
              { st with blobs := st.blobs ++ [(newId, view)], nextId := st.nextId + 1 }
            match Catalog.update cfg st1.catalog
                ⟨p, some newId, some oldId, some checksum, opts.mimeType,
                 some view.length, opts.description, opts.metadata⟩ st1.now with
            | .error e =>
                (.error e, { st1 with blobs := blobErase st1.blobs newId },
                 [.catRead p, .blobCreate newId, .blobRemove newId])
            | .ok c =>
                (.ok ⟨cfg.bucketName, p⟩,
                 { st1 with catalog := c, blobs := blobErase st1.blobs oldId },
                 [.catRead p, .blobCreate newId, .catUpdate p, .blobRemove oldId])

/-- `ManagedOpfs.removeFile`: read the entity id, remove the blob, then
delete the catalog row (a failure of that delete is only logged).  A
missing blob still deletes the row and throws `MopfsFileExistsError`;
true absence surfaces the catalog's `FileNotFound`. -/
def removeFile (st : MState) (p : String) : Except Err Unit × MState × List Ev :=
  if ¬ st.opened then
    (.error .notOpen, st, [])
  else
    match Catalog.readEntityId st.catalog p with
    | .error e => (.error e, st, [.catRead p])
    | .ok eid =>
        match blobFind st.blobs eid with
        | none =>
            match Catalog.delete st.catalog p with
            | .ok c =>
                (.error (.fileExists p), { st with catalog := c },
                 [.catRead p, .catDelete p])
            | .error _ => (.error (.fileExists p), st, [.catRead p])
        | some _ =>
            let st1 : MState := { st with blobs := blobErase st.blobs eid }
            match Catalog.delete st1.catalog p with
            | .ok c =>
                (.ok (), { st1 with catalog := c },
                 [.catRead p, .blobRemove eid, .catDelete p])
            | .error _ =>
                (.ok (), st1, [.catRead p, .blobRemove eid])

/-! ## The stream classes -/

/-- Effects of a stream `write` call on its collaborators: the underlying
blob writer and the `main/` directory. -/
inductive StreamEv where
  | writerWrite (bytes : List Nat)
  | writerAbort
  | removeEntity
  deriving DecidableEq, Repr

/-- Observable state of `WritableFileStream`: the manager's `opened` flag
it consults, the size counter, the bytes fed to the incremental MD5
hasher, and the `closed` flag. -/
structure WStream where
  opened : Bool
  size : Nat
  hashed : List Nat
  closed : Bool
  deriving DecidableEq, Repr

/-- `WritableFileStream.write`: abort-and-discard when the manager is
closed; otherwise coerce to bytes, return early on an empty view, else
write, accumulate size and update the hash. -/
def WStream.write (s : WStream) (chunk : List Nat) :
    Except Err Unit × WStream × List StreamEv :=
  if ¬ s.opened then
    (.error .notOpen, s, [.writerAbort, .removeEntity])
  else if chunk.length = 0 then
    (.ok (), s, [])
  else
    (.ok (), { s with size := s.size + chunk.length, hashed := s.hashed ++ chunk },
     [.writerWrite chunk])

/-- Observable state of `OverwritableFileStream`: as `WStream`, plus the
`updateEntityId` flag that selects the entity-update versus metadata-only
path of `close()`. -/
structure OStream where
  opened : Bool
  size : Nat
  hashed : List Nat
  closed : Bool
  updateEntityId : Bool
  deriving DecidableEq, Repr

/-- `OverwritableFileStream.write`: abort-and-discard when the manager is
closed; otherwise set `updateEntityId := true` (the source does this
before the empty-chunk check), return early on an empty view, else
write, accumulate size and update the hash. -/
def OStream.write (s : OStream) (chunk : List Nat) :
    Except Err Unit × OStream × List StreamEv :=
  if ¬ s.opened then
    (.error .notOpen, s, [.writerAbort, .removeEntity])
  else
    let s1 : OStream := { s with updateEntityId := true }
    if chunk.length = 0 then
      (.ok (), s1, [])
    else
      (.ok (), { s1 with size := s1.size + chunk.length, hashed := s1.hashed ++ chunk },
       [.writerWrite chunk])

/-! ## The mutex scheduler (src/mutex.ts)

The decorators keep one queue per instance.  An entry of a W slot's
`steps` array is either the shared `next` continuation (pushed when the
slot's `steps` is empty at arrival, with the arriving call's step promise
already resolved) or the resolver of a later arrival's step promise.
`next` shifts one entry and fires it; the shared continuation fires one
more entry; an empty `steps` shifts the queue and starts the new head.
Readers share a counter; the last one to finish shifts the queue.  The
model below is a small-step transition system over exactly this data. -/

namespace Sched

/-- One entry of a W slot's `steps` array: `tick` is the shared `next`
continuation, `wake i` the resolver of call `i`'s step promise. -/
inductive StepEntry where
  | tick
  | wake (op : Nat)
  deriving DecidableEq, Repr

/-- Writer (`@mutex`) or reader (`@mutex.readonly`). -/
inductive Kind where
  | W
  | R
  deriving DecidableEq, Repr

/-- A queue slot: its kind, whether its `ready` promise is resolved, its
`steps` array (W) and its reader counter (R). -/
structure Slot where
  kind : Kind
  ready : Bool
  steps : List StepEntry
  count : Nat
  deriving DecidableEq, Repr

instance : Inhabited Slot := ⟨⟨.W, false, [], 0⟩⟩

/-- Where a decorated call is in its promise chain: created but its
method not yet entered, method executing, or settled. -/
inductive Phase where
  | waiting
  | running
  | done
  deriving DecidableEq, Repr

/-- One decorated call: its kind, the slot it joined, whether its step
promise is resolved (writers), and its phase. -/
structure Op where
  kind : Kind
  slot : Nat
  stepOk : Bool
  phase : Phase
  deriving DecidableEq, Repr

instance : Inhabited Op := ⟨⟨.W, 0, false, .waiting⟩⟩

/-- The per-instance scheduler state: slot objects (addressed by creation
index; slot objects outlive their queue membership, as closures keep
referencing them), the queue of slot indices, and the calls. -/
structure State where
  slots : List Slot
  queue : List Nat
  ops : List Op
  deriving DecidableEq, Repr

/-- The empty queue installed by the decorator's instance initializer. -/
def init : State := ⟨[], [], []⟩

/-- `queue.shift(); queue[0]?.start()`: drop the head and resolve the new
head's `ready` promise. -/
def popStart (s : State) : State :=
  match s.queue with
  | [] => s
  | _ :: rest =>
      match rest with
      | [] => { s with queue := [] }
      | h :: _ =>
          { s with queue := rest,
                   slots := s.slots.set h { s.slots.getD h default with ready := true } }

/-- The body of a W slot's `next`: shift one entry of `steps` and fire it
(`tick` fires one further entry); an empty `steps` advances the queue.
The fuel bounds the `tick` chain; `steps.length + 1` always suffices. -/
def runNext (fuel : Nat) (slotId : Nat) (s : State) : State :=
  match fuel with
  | 0 => s
  | fuel + 1 =>
      let slot := s.slots.getD slotId default
      match slot.steps with
      | [] => popStart s
      | e :: rest =>
          let s1 : State := { s with slots := s.slots.set slotId { slot with steps := rest } }
          match e with
          | .tick => runNext fuel slotId s1
          | .wake i =>
              { s1 with ops := s1.ops.set i { s1.ops.getD i default with stepOk := true } }

/-- A writer call arrives (the synchronous body of `mutexClassMethod`):
reuse the tail W slot or push a fresh one, then either push the shared
`next` with a pre-resolved step promise (empty `steps`) or append this
call's resolver. -/
def arriveW (s : State) : State :=
  let opId := s.ops.length
  match s.queue.getLast? with
  | none =>
      let slotId := s.slots.length
      { slots := s.slots ++ [⟨.W, true, [.tick], 0⟩]
        queue := s.queue ++ [slotId]
        ops := s.ops ++ [⟨.W, slotId, true, .waiting⟩] }
  | some lastId =>
      let last := s.slots.getD lastId default
      match last.kind with
      | .R =>
          let slotId := s.slots.length
          { slots := s.slots ++ [⟨.W, false, [.tick], 0⟩]
            queue := s.queue ++ [slotId]
            ops := s.ops ++ [⟨.W, slotId, true, .waiting⟩] }
      | .W =>
          match last.steps with
          | [] =>
              { s with slots := s.slots.set lastId { last with steps := [.tick] }
                       ops := s.ops ++ [⟨.W, lastId, true, .waiting⟩] }
          | _ :: _ =>
              { s with slots := s.slots.set lastId
                         { last with steps := last.steps ++ [.wake opId] }
                       ops := s.ops ++ [⟨.W, lastId, false, .waiting⟩] }

/-- A reader call arrives (the synchronous body of
`mutexReadonlyClassMethod`): reuse the tail R slot or push a fresh one,
and increment its counter. -/
def arriveR (s : State) : State :=
  match s.queue.getLast? with
  | none =>
      let slotId := s.slots.length
      { slots := s.slots ++ [⟨.R, true, [], 1⟩]
        queue := s.queue ++ [slotId]
        ops := s.ops ++ [⟨.R, slotId, true, .waiting⟩] }
  | some lastId =>
      let last := s.slots.getD lastId default
      match last.kind with
      | .W =>
          let slotId := s.slots.length
          { slots := s.slots ++ [⟨.R, false, [], 1⟩]
            queue := s.queue ++ [slotId]
            ops := s.ops ++ [⟨.R, slotId, true, .waiting⟩] }
      | .R =>
          { s with slots := s.slots.set lastId { last with count := last.count + 1 }
                   ops := s.ops ++ [⟨.R, lastId, true, .waiting⟩] }

/-- A waiting call's method may enter once the promises it chains on are
resolved: the slot's `ready`, and for writers also its step promise. -/
def canStart (s : State) (i : Nat) : Bool :=
  match s.ops.get? i with
  | none => false
  | some o =>
      o.phase = .waiting && (s.slots.getD o.slot default).ready &&
        (match o.kind with | .W => o.stepOk | .R => true)

/-- Enter call `i`'s method. -/
def startOp (s : State) (i : Nat) : State :=
  { s with ops := s.ops.set i { s.ops.getD i default with phase := .running } }

/-- Call `i`'s method settles: its `finally` runs — `next` for writers;
for readers decrement the counter and advance the queue at zero. -/
def finishOp (s : State) (i : Nat) : State :=
  let o := s.ops.getD i default
  let s1 : State := { s with ops := s.ops.set i { o with phase := .done } }
  match o.kind with
  | .W => runNext ((s1.slots.getD o.slot default).steps.length + 1) o.slot s1
  | .R =>
      let slot := s1.slots.getD o.slot default
      let c := slot.count - 1
      let s2 : State := { s1 with slots := s1.slots.set o.slot { slot with count := c } }
      if c = 0 then popStart s2 else s2

/-- One scheduler event: a call arrives (synchronously), a startable call
enters its method, or a running call settles. -/
inductive SchedStep : State → State → Prop where
  | arriveW (s : State) : SchedStep s (arriveW s)
  | arriveR (s : State) : SchedStep s (arriveR s)
  | start (s : State) (i : Nat) (h : canStart s i = true) : SchedStep s (startOp s i)
  | finish (s : State) (i : Nat)
      (h : (s.ops.getD i default).phase = .running) (hi : i < s.ops.length) :
      SchedStep s (finishOp s i)

/-- States reachable from the empty scheduler. -/
def Reachable (s : State) : Prop :=
  Relation.ReflTransGen SchedStep init s

/-- Two distinct calls are simultaneously inside their methods and at
least one of them is a writer. -/
def WriterOverlap (s : State) : Prop :=
  ∃ i : Fin s.ops.length, ∃ j : Fin s.ops.length, i.val ≠ j.val ∧
    (s.ops.getD i.val default).phase = .running ∧
    (s.ops.getD j.val default).phase = .running ∧
    (s.ops.getD i.val default).kind = .W

instance (s : State) : Decidable (WriterOverlap s) := by
  unfold WriterOverlap; infer_instance

end Sched

/-! ## Fixtures for concrete evaluations -/

/-- A concrete configuration for witnesses (the external collaborators
instantiated with simple computable functions). -/
def exampleCfg : Cfg :=
  { bucketName := "test"
    maxDescriptionSize := 16
    maxMetadataJsonSize := 16
    toFts := fun s => s
    jsonStringify := fun s => s
    mimeGet := fun _ => some "text/plain"
    md5 := fun d => toString d.length }

/-- A concrete catalog row for witnesses. -/
def exampleRow : FileRow :=
  { fullpath := "a"
    pathSeg := ["a"]
    entityid := 0
    hashMd5 := "h"
    mimeTyp := "text/plain"
    contLen := 1
    lastMod := 1
    descRaw := none
    descFts := none
    metaJs := none }

/-- An open manager state holding one file whose blob is present. -/
def exampleState : MState :=
  { opened := true
    catalog := ⟨[exampleRow]⟩
    blobs := [(0, [9])]
    nextId := 1
    now := 5 }

/-- An open manager state holding one dangling catalog row: the row for
`"a"` names entity `0` but no blob `0` exists. -/
def danglingState : MState :=
  { opened := true
    catalog := ⟨[exampleRow]⟩
    blobs := []
    nextId := 1
    now := 5 }

/-- An open, empty manager state. -/
def emptyState : MState :=
  { opened := true
    catalog := ⟨[]⟩
    blobs := []
    nextId := 0
    now := 5 }

/-- The catalog size invariant of the specification: every row's raw
description fits half the description limit and its metadata JSON fits
the metadata limit. -/
def SizeInv (cfg : Cfg) (st : CatalogState) : Prop :=
  ∀ r ∈ st.rows,
    (∀ s, r.descRaw = some s → s.length ≤ cfg.maxDescriptionSize / 2) ∧
    (∀ j, r.metaJs = some j → j.length ≤ cfg.maxMetadataJsonSize)

namespace Sched

/-- First writer call arrives on an idle instance. -/
def overlapS1 : State := arriveW init

/-- Second writer call arrives while the first one is queued. -/
def overlapS2 : State := arriveW overlapS1

/-- The first writer's method starts. -/
def overlapS3 : State := startOp overlapS2 0

/-- The first writer settles; its `next` drains the shared continuation
and resolves the second writer's step promise, leaving `steps` empty. -/
def overlapS4 : State := finishOp overlapS3 0

/-- The second writer's method starts. -/
def overlapS5 : State := startOp overlapS4 1

/-- A third writer call arrives while the second is mid-flight: it finds
the head W slot with an empty `steps` array, so its step promise is
created already resolved. -/
def overlapS6 : State := arriveW overlapS5

/-- The third writer's method starts — while the second is still
running. -/
def overlapS7 : State := startOp overlapS6 2

end Sched

/-! ## Helper lemmas -/

open Catalog

theorem find?_append_left_none {α : Type} (l l₂ : List α) (q : α → Bool)
    (h : ∀ x ∈ l, q x = false) : (l ++ l₂).find? q = l₂.find? q := by
  induction l with
  | nil => rfl
  | cons x xs ih =>
      have hx : q x = false := h x (by simp)
      simp only [List.cons_append, List.find?, hx]
      exact ih (fun y hy => h y (by simp [hy]))

theorem any_of_find?_eq_some {α : Type} {l : List α} {q : α → Bool} {r : α}
    (h : l.find? q = some r) : l.any q = true := by
  induction l with
  | nil => simp [List.find?] at h
  | cons x xs ih =>
      by_cases hx : q x = true
      · simp [hx]
      · have hx' : q x = false := by simpa using hx
        simp only [List.find?, hx'] at h
        simp [ih h]

theorem blobFind_append_fresh (bs : List (Nat × List Nat)) (id : Nat) (d : List Nat)
    (h : ∀ b ∈ bs, b.1 < id) : blobFind (bs ++ [(id, d)]) id = some d := by
  unfold blobFind
  rw [find?_append_left_none]
  · simp
  · intro b hb
    simp only [decide_eq_false_iff_not]
    exact Nat.ne_of_lt (h b hb)

theorem blobErase_append_fresh (bs : List (Nat × List Nat)) (id : Nat) (d : List Nat)
    (h : ∀ b ∈ bs, b.1 < id) : blobErase (bs ++ [(id, d)]) id = bs := by
  unfold blobErase
  rw [List.filter_append]
  have h1 : bs.filter (fun b => ¬ b.1 = id) = bs := by
    apply List.filter_eq_self.mpr
    intro b hb
    simp only [decide_eq_true_eq]
    exact Nat.ne_of_lt (h b hb)
  have h2 : ([(id, d)] : List (Nat × List Nat)).filter (fun b => ¬ b.1 = id) = [] := by
    simp
  rw [h1, h2, List.append_nil]

/-- Unpacking a successful `Catalogdb.create`: both uniqueness checks
passed, the two computed fields validated, and the result appends exactly
one row built from the input. -/
theorem create_ok_spec {cfg : Cfg} {st : CatalogState} {inp : CreateInput} {now : Nat}
    {c : CatalogState} (h : create cfg st inp now = .ok c) :
    st.rows.any (fun r => r.fullpath = inp.filePath) = false ∧
    st.rows.any (fun r => r.entityid = inp.entityId) = false ∧
    ∃ dfts mjs,
      descCreateField cfg inp.description = .ok dfts ∧
      metaCreateField cfg inp.metadata = .ok mjs ∧
      c.rows = st.rows ++ [⟨inp.filePath, segmentsOf inp.filePath, inp.entityId,
        inp.checksum, inp.mimeType.getD (getMimeTypeD cfg (basenameOf inp.filePath)),
        inp.fileSize, now, inp.description, dfts, mjs⟩] := by
  cases hd : descCreateField cfg inp.description with
  | error e => simp [create, hd] at h
  | ok dfts =>
      cases hm : metaCreateField cfg inp.metadata with
      | error e => simp [create, hd, hm] at h
      | ok mjs =>
          by_cases hfp : st.rows.any (fun r => r.fullpath = inp.filePath) = true
          · simp [create, hd, hm, hfp] at h
          · by_cases hei : st.rows.any (fun r => r.entityid = inp.entityId) = true
            · simp [create, hd, hm, hfp, hei] at h
            · refine ⟨by simpa using hfp, by simpa using hei, dfts, mjs, rfl, rfl, ?_⟩
              simp only [create, hd, hm, Bool.not_eq_true] at h
              rw [eq_false_of_ne_true hfp, eq_false_of_ne_true hei] at h
              simp only [Bool.false_eq_true, if_false] at h
              cases h
              rfl

/-- `create` maps a duplicate `fullpath` to `FileExists` once the
computed fields validated. -/
theorem create_dup_fullpath {cfg : Cfg} {st : CatalogState} {inp : CreateInput} {now : Nat}
    {dfts mjs : Option String}
    (hd : descCreateField cfg inp.description = .ok dfts)
    (hm : metaCreateField cfg inp.metadata = .ok mjs)
    (hfp : st.rows.any (fun r => r.fullpath = inp.filePath) = true) :
    create cfg st inp now = .error (.fileExists inp.filePath) := by
  simp [create, hd, hm, hfp]

/-- A validated description bound: `descCreateField` succeeds only when
the raw description fits `⌊maxDescriptionSize / 2⌋`. -/
theorem descCreateField_ok_bound {cfg : Cfg} {d : Option String} {dfts : Option String}
    (h : descCreateField cfg d = .ok dfts) :
    ∀ s, d = some s → s.length ≤ cfg.maxDescriptionSize / 2 := by
  intro s hs
  subst hs
  by_cases hb : s.length ≤ cfg.maxDescriptionSize / 2
  · exact hb
  · simp [descCreateField, toFtsStr, parseDescRaw, sizeLimited, hb] at h

/-- A validated metadata bound: `metaCreateField` produces only strings
fitting `⌊maxMetadataJsonSize / 2⌋`. -/
theorem metaCreateField_ok_bound {cfg : Cfg} {m : Option String} {mjs : Option String}
    (h : metaCreateField cfg m = .ok mjs) :
    ∀ j, mjs = some j → j.length ≤ cfg.maxMetadataJsonSize / 2 := by
  intro j hj
  cases m with
  | none =>
      simp [metaCreateField] at h
      rw [← h] at hj
      cases hj
  | some s =>
      by_cases hb : (cfg.jsonStringify s).length ≤ cfg.maxMetadataJsonSize / 2
      · simp [metaCreateField, stringifyMeta, sizeLimited, hb] at h
        rw [← h] at hj
        cases hj
        exact hb
      · simp [metaCreateField, stringifyMeta, sizeLimited, hb] at h

/-- Unpacking a successful `Catalogdb.update`: either the fast existence
check ran (all fields `undefined`) and the state is unchanged, or the
field fragments validated, at least one row matched the guarded WHERE
clause, and exactly the matched rows were rewritten. -/
theorem update_ok_spec {cfg : Cfg} {st : CatalogState} {inp : UpdateInput} {now : Nat}
    {st' : CatalogState} (h : update cfg st inp now = .ok st') :
    (inp.allUndefined = true ∧ st' = st) ∨
    (inp.allUndefined = false ∧ st.rows.any (updMatches inp) = true ∧
     ∃ df mf, updateDescField cfg inp.description = .ok df ∧
       updateMetaField cfg inp.metadata = .ok mf ∧
       st'.rows = st.rows.map (fun r =>
         if updMatches inp r then applyUpdate inp df mf now r else r)) := by
  by_cases hall : inp.allUndefined = true
  · left
    refine ⟨hall, ?_⟩
    by_cases hfp : st.rows.any (fun r => r.fullpath = inp.filePath) = true
    · simp [update, hall, hfp] at h
      exact h.symm
    · simp [update, hall, hfp] at h
  · right
    have hall' : inp.allUndefined = false := eq_false_of_ne_true hall
    cases hd : updateDescField cfg inp.description with
    | error e => simp [update, hall', hd] at h
    | ok df =>
        cases hm : updateMetaField cfg inp.metadata with
        | error e => simp [update, hall', hd, hm] at h
        | ok mf =>
            by_cases hmatch : st.rows.any (updMatches inp) = true
            · refine ⟨hall', hmatch, df, mf, rfl, rfl, ?_⟩
              cases hnew : inp.newEntityId with
              | none =>
                  simp [update, hall', hd, hm, hmatch, hnew] at h
                  rw [← h]
              | some nid =>
                  simp [update, hall', hd, hm, hmatch, hnew] at h
                  split at h
                  · simp at h
                  · rw [← Except.ok.inj h]
            · simp [update, hall', hd, hm, hmatch] at h

/-- `update` with a guarded WHERE clause that matches no row fails
`FileNotFound` (once the field fragments validated). -/
theorem update_zero_rows {cfg : Cfg} {st : CatalogState} {inp : UpdateInput} {now : Nat}
    {df : Option (Option String × Option String)} {mf : Option (Option String)}
    (hall : inp.allUndefined = false)
    (hd : updateDescField cfg inp.description = .ok df)
    (hm : updateMetaField cfg inp.metadata = .ok mf)
    (hmis : st.rows.any (updMatches inp) = false) :
    update cfg st inp now = .error (.fileNotFound inp.filePath) := by
  simp [update, hall, hd, hm, hmis]

/-- The description written by `updateDescField` is bounded. -/
theorem updateDescField_ok_bound {cfg : Cfg} {d : Option (Option String)}
    {df : Option (Option String × Option String)}
    (h : updateDescField cfg d = .ok df) :
    ∀ s f, df = some (some s, f) → s.length ≤ cfg.maxDescriptionSize / 2 := by
  intro s f hdf
  cases d with
  | none =>
      simp [updateDescField] at h
      rw [← h] at hdf
      cases hdf
  | some d' =>
      cases d' with
      | none =>
          simp [updateDescField] at h
          rw [← h] at hdf
          cases hdf
      | some s' =>
          by_cases hb : s'.length ≤ cfg.maxDescriptionSize / 2
          · cases hf : toFtsStr cfg s' with
            | error e => simp [updateDescField, hf] at h
            | ok f' =>
                simp [updateDescField, hf] at h
                rw [← h] at hdf
                cases hdf
                exact hb
          · simp [updateDescField, toFtsStr, parseDescRaw, sizeLimited, hb] at h

/-- The metadata written by `updateMetaField` is bounded. -/
theorem updateMetaField_ok_bound {cfg : Cfg} {m : Option (Option String)}
    {mf : Option (Option String)}
    (h : updateMetaField cfg m = .ok mf) :
    ∀ j, mf = some (some j) → j.length ≤ cfg.maxMetadataJsonSize / 2 := by
  intro j hmf
  cases m with
  | none =>
      simp [updateMetaField] at h
      rw [← h] at hmf
      cases hmf
  | some m' =>
      cases m' with
      | none =>
          simp [updateMetaField] at h
          rw [← h] at hmf
          cases hmf
      | some s =>
          by_cases hb : (cfg.jsonStringify s).length ≤ cfg.maxMetadataJsonSize / 2
          · simp [updateMetaField, stringifyMeta, sizeLimited, hb] at h
            rw [← h] at hmf
            cases hmf
            exact hb
          · simp [updateMetaField, stringifyMeta, sizeLimited, hb] at h

/-! ## Claim theorems -/

/-- Claim C10: on an open manager, `overwriteFile(p, opts)` with every
option field `undefined` returns `FileIdent{bucketName, filePath: p}`
immediately, leaves the state untouched and performs no catalog or
blob-store operation (empty trace) — in particular it cannot fail with
`FileNotFound`, whether or not a row for `p` exists. -/
theorem c10_overwrite_all_undefined (cfg : Cfg) (st : MState) (p : String)
    (h : st.opened = true) :
    overwriteFile cfg st p ⟨none, none, none, none⟩ =
      (.ok ⟨cfg.bucketName, p⟩, st, []) := by
  simp [overwriteFile, h, OverwriteOpts.allUndefined]

/-- Witness for C10: the claim theorem applied to the one-file fixture at
a path that has no catalog row. -/
theorem c10_overwrite_all_undefined_witness :
    exampleState.opened = true ∧
    overwriteFile exampleCfg exampleState "zzz" ⟨none, none, none, none⟩ =
      (.ok ⟨"test", "zzz"⟩, exampleState, []) :=
  ⟨rfl, c10_overwrite_all_undefined exampleCfg exampleState "zzz" rfl⟩

/-- Counterexample to claim C7: on `OverwritableFileStream`, a `write`
with an empty chunk is not a frame-preserving no-op — the source sets the
`updateEntityId` flag before the empty-chunk early return, so the flag
flips from `false` to `true` and a subsequent `close()` takes the
entity-update path, not the metadata-only path. -/
theorem c7_empty_write_flag_flips :
    (⟨true, 0, [], false, false⟩ : OStream).updateEntityId = false ∧
    OStream.write ⟨true, 0, [], false, false⟩ [] =
      (.ok (), ⟨true, 0, [], false, true⟩, []) :=
  ⟨rfl, rfl⟩

/-- Claim C7 as amended: a `write(chunk)` whose chunk coerces to zero
bytes performs no underlying writer call and leaves the size counter and
the hash state unchanged in both stream variants; `WritableFileStream`
is left entirely unchanged, while `OverwritableFileStream` sets its
`updateEntityId` flag (so a subsequent `close()` takes the entity-update
path). -/
theorem c7_empty_write_amended (w : WStream) (o : OStream) (chunk : List Nat)
    (hw : w.opened = true) (ho : o.opened = true) (hc : chunk.length = 0) :
    WStream.write w chunk = (.ok (), w, []) ∧
    OStream.write o chunk = (.ok (), { o with updateEntityId := true }, []) := by
  constructor
  · simp [WStream.write, hw, hc]
  · simp [OStream.write, ho, hc]

/-- Witness for the amended C7 at concrete open streams. -/
theorem c7_empty_write_amended_witness :
    (⟨true, 3, [7], false⟩ : WStream).opened = true ∧
    (⟨true, 3, [7], false, false⟩ : OStream).opened = true ∧
    ([] : List Nat).length = 0 ∧
    (WStream.write ⟨true, 3, [7], false⟩ [] = (.ok (), ⟨true, 3, [7], false⟩, []) ∧
     OStream.write ⟨true, 3, [7], false, false⟩ [] =
       (.ok (), ⟨true, 3, [7], false, true⟩, [])) :=
  ⟨rfl, rfl, rfl,
   c7_empty_write_amended ⟨true, 3, [7], false⟩ ⟨true, 3, [7], false, false⟩ [] rfl rfl rfl⟩

/-- Counterexample to claim C8: `list(D, {limit: 0})` does not return the
empty list — the source only appends a `LIMIT` clause when the limit is
defined and positive, so `limit = 0` means no limit at all, and on a
catalog holding the single file `"a"` the listing of the root directory
returns that entry. -/
theorem c8_limit_zero_not_empty :
    Catalog.list ⟨[exampleRow]⟩ ⟨[], some 0, none, none⟩ = [⟨true, "a"⟩] ∧
    Catalog.list ⟨[exampleRow]⟩ ⟨[], some 0, none, none⟩ ≠ [] := by
  decide

/-- Claim C8 as amended: `list(D, {limit: 0})` behaves as if no limit had
been given (it returns every child), and `list(D, {offset: k})` with `k`
at least the size of the unpaginated result set returns the empty
list. -/
theorem c8_list_pagination (st : CatalogState) (D : List String)
    (off : Option Nat) (ord : Option OrderBy) :
    (Catalog.list st ⟨D, some 0, off, ord⟩ = Catalog.list st ⟨D, none, off, ord⟩) ∧
    (∀ lim k, (listAll st D (ord.getD .asc)).length ≤ k →
      Catalog.list st ⟨D, lim, some k, ord⟩ = []) := by
  constructor
  · simp [Catalog.list]
  · intro lim k hk
    have hdrop : (listAll st D (ord.getD .asc)).drop k = [] :=
      List.drop_eq_nil_of_le hk
    cases lim with
    | none => simp [Catalog.list, hdrop]
    | some l =>
        by_cases hl : 0 < l <;> simp [Catalog.list, hdrop, hl]

/-- Witness for the amended C8 on the one-row fixture. -/
theorem c8_list_pagination_witness :
    (Catalog.list ⟨[exampleRow]⟩ ⟨[], some 0, none, none⟩ =
       Catalog.list ⟨[exampleRow]⟩ ⟨[], none, none, none⟩) ∧
    ((listAll ⟨[exampleRow]⟩ [] .asc).length ≤ 7 ∧
     Catalog.list ⟨[exampleRow]⟩ ⟨[], none, some 7, none⟩ = []) :=
  ⟨(c8_list_pagination ⟨[exampleRow]⟩ [] none none).1,
   by decide,
   (c8_list_pagination ⟨[exampleRow]⟩ [] none none).2 none 7 (by decide)⟩

/-- Claim C2 is violated by the source (a code bug): in the schedule
below, writers 0 and 1 arrive back to back, writer 0 runs and settles
(its `next` drains the slot's `steps` array while resolving writer 1's
step promise), writer 1 starts, and then writer 2 arrives mid-flight:
finding the head W slot with empty `steps`, its step promise is created
already resolved, so it starts while writer 1 is still running.  The
final state is reachable in the scheduler's transition system and has
two `@mutex` (writer) calls simultaneously in their methods, contradicting
the decorator's own contract of concurrency 1. -/
theorem c2_mutex_writer_overlap :
    Sched.Reachable Sched.overlapS7 ∧ Sched.WriterOverlap Sched.overlapS7 := by
  refine ⟨?_, by decide⟩
  have h1 : Sched.SchedStep Sched.init Sched.overlapS1 := Sched.SchedStep.arriveW _
  have h2 : Sched.SchedStep Sched.overlapS1 Sched.overlapS2 := Sched.SchedStep.arriveW _
  have h3 : Sched.SchedStep Sched.overlapS2 Sched.overlapS3 :=
    Sched.SchedStep.start _ 0 (by decide)
  have h4 : Sched.SchedStep Sched.overlapS3 Sched.overlapS4 :=
    Sched.SchedStep.finish _ 0 (by decide) (by decide)
  have h5 : Sched.SchedStep Sched.overlapS4 Sched.overlapS5 :=
    Sched.SchedStep.start _ 1 (by decide)
  have h6 : Sched.SchedStep Sched.overlapS5 Sched.overlapS6 := Sched.SchedStep.arriveW _
  have h7 : Sched.SchedStep Sched.overlapS6 Sched.overlapS7 :=
    Sched.SchedStep.start _ 2 (by decide)
  exact .tail (.tail (.tail (.tail (.tail (.tail (.tail .refl h1) h2) h3) h4) h5) h6) h7

/-- Claim C3 is half right, half a code bug: when the catalog row for `p`
exists but its blob is missing, `readFile(p)` does delete the dangling
row (self-heal, with cleanup failures only logged) — but it then fails
with the `FileExists` error kind (`MopfsFileExistsError` in the source),
not `FileNotFound` as the claim and the specification state.  This
theorem evaluates the code on that configuration: the result error is
`Err.fileExists p` and the returned state no longer has a row at `p`. -/
theorem c3_readFile_dangling (st : MState) (p : String) (out : ReadOutput)
    (hopen : st.opened = true)
    (hr : Catalog.read st.catalog p = .ok out)
    (hb : blobFind st.blobs out.entityId = none) :
    readFile st p =
      (.error (.fileExists p),
       { st with catalog := ⟨st.catalog.rows.filter (fun r => ¬ r.fullpath = p)⟩ },
       [.catRead p, .catDelete p]) ∧
    ∀ r ∈ (readFile st p).2.1.catalog.rows, ¬ r.fullpath = p := by
  have hfind : ∃ r0, st.catalog.rows.find? (fun r => r.fullpath = p) = some r0 := by
    cases hf : st.catalog.rows.find? (fun r => r.fullpath = p) with
    | none => simp [Catalog.read, hf] at hr
    | some r0 => exact ⟨r0, rfl⟩
  obtain ⟨r0, hf⟩ := hfind
  have hany := any_of_find?_eq_some hf
  have hdel : Catalog.delete st.catalog p =
      .ok ⟨st.catalog.rows.filter (fun r => ¬ r.fullpath = p)⟩ := by
    simp [Catalog.delete, hany]
  have hmain : readFile st p =
      (.error (.fileExists p),
       { st with catalog := ⟨st.catalog.rows.filter (fun r => ¬ r.fullpath = p)⟩ },
       [.catRead p, .catDelete p]) := by
    simp [readFile, hopen, hr, hb, hdel]
  refine ⟨hmain, ?_⟩
  rw [hmain]
  intro r hrm
  simpa using (List.mem_filter.mp hrm).2

/-- Witness for C3 on the dangling fixture: the row for `"a"` names
entity `0`, no blob `0` exists, and `readFile` deletes the row and fails
with the `FileExists` kind. -/
theorem c3_readFile_dangling_witness :
    danglingState.opened = true ∧
    Catalog.read danglingState.catalog "a" = .ok ⟨0, "h", "text/plain", 1, 1⟩ ∧
    blobFind danglingState.blobs 0 = none ∧
    (readFile danglingState "a" =
       (.error (.fileExists "a"),
        { danglingState with
            catalog := ⟨danglingState.catalog.rows.filter (fun r => ¬ r.fullpath = "a")⟩ },
        [.catRead "a", .catDelete "a"]) ∧
     ∀ r ∈ (readFile danglingState "a").2.1.catalog.rows, ¬ r.fullpath = "a") :=
  ⟨rfl, rfl, rfl,
   c3_readFile_dangling danglingState "a" ⟨0, "h", "text/plain", 1, 1⟩ rfl rfl rfl⟩

/-- Claim C4: when `catalog.update` is given `oldEntityId`, the UPDATE
only ever touches a row whose `entityid` equals it (first conjunct: a
successful update implies the pre-state row at `filePath` carried
`oldEntityId`), and when no row satisfies the guarded WHERE clause —
in particular when the stored `entityid` moved on — the call fails
`FileNotFound` and writes nothing (the second conjunct assumes the
description/metadata fragments validate, as the source evaluates those
while assembling the SET clause, before any row is touched). -/
theorem c4_update_oldEntityId_guard (cfg : Cfg) (st : CatalogState) (inp : UpdateInput)
    (now : Nat) (o : Nat) (ho : inp.oldEntityId = some o) :
    (∀ st', update cfg st inp now = .ok st' →
       ∃ r ∈ st.rows, r.fullpath = inp.filePath ∧ r.entityid = o) ∧
    (∀ df mf, updateDescField cfg inp.description = .ok df →
       updateMetaField cfg inp.metadata = .ok mf →
       (∀ r ∈ st.rows, r.fullpath = inp.filePath → ¬ r.entityid = o) →
       update cfg st inp now = .error (.fileNotFound inp.filePath)) := by
  have hall : inp.allUndefined = false := by
    simp [UpdateInput.allUndefined, ho]
  constructor
  · intro st' h
    rcases update_ok_spec h with ⟨h1, _⟩ | ⟨_, hmatch, _⟩
    · rw [hall] at h1
      simp at h1
    · rcases List.any_eq_true.mp hmatch with ⟨r, hr, hru⟩
      refine ⟨r, hr, ?_⟩
      simpa [updMatches, ho] using hru
  · intro df mf hd hm hmis
    apply update_zero_rows hall hd hm
    rw [List.any_eq_false]
    intro r hr
    simp [updMatches, ho]
    intro hfp
    exact hmis r hr hfp

/-- Witness for C4: on a catalog whose row at `"a"` has entity `0`, an
update guarded with the stale `oldEntityId = 5` fails `FileNotFound`. -/
theorem c4_update_oldEntityId_guard_witness :
    (⟨"a", none, some 5, some "c", none, some 2, none, none⟩ :
        UpdateInput).oldEntityId = some 5 ∧
    updateDescField exampleCfg none = .ok none ∧
    updateMetaField exampleCfg none = .ok none ∧
    (∀ r ∈ ([exampleRow] : List FileRow), r.fullpath = "a" → ¬ r.entityid = 5) ∧
    update exampleCfg ⟨[exampleRow]⟩ ⟨"a", none, some 5, some "c", none, some 2, none, none⟩ 9 =
      .error (.fileNotFound "a") :=
  ⟨rfl, rfl, rfl, by decide,
   (c4_update_oldEntityId_guard exampleCfg ⟨[exampleRow]⟩
       ⟨"a", none, some 5, some "c", none, some 2, none, none⟩ 9 5 rfl).2
     none none rfl rfl (by decide)⟩

/-- Claim C5: when the blob was staged and closed but `catalog.create`
fails, `writeFile` removes the staged blob (the trace is the blob write
followed by its removal) and rethrows the original catalog error; the
resulting state differs from the initial one only in the consumed entity
id — no catalog row and no blob for the new entity id remain; and a
duplicate-fullpath constraint violation (with the computed fields
validating) surfaces as `FileExists`. -/
theorem c5_writeFile_catalog_failure (cfg : Cfg) (st : MState) (p : String)
    (d : List Nat) (opts : WriteOpts) (e : Err)
    (hopen : st.opened = true) (hfresh : Fresh st)
    (hc : Catalog.create cfg st.catalog
        ⟨p, st.nextId, cfg.md5 d, opts.mimeType, d.length, opts.description, opts.metadata⟩
        st.now = .error e) :
    writeFile cfg st p d opts =
      (.error e, { st with nextId := st.nextId + 1 },
       [.blobCreate st.nextId, .blobRemove st.nextId]) ∧
    blobFind st.blobs st.nextId = none ∧
    (∀ dfts mjs, descCreateField cfg opts.description = .ok dfts →
       metaCreateField cfg opts.metadata = .ok mjs →
       st.catalog.rows.any (fun r => r.fullpath = p) = true →
       e = .fileExists p) := by
  refine ⟨?_, ?_, ?_⟩
  · have herase := blobErase_append_fresh st.blobs st.nextId d hfresh.1
    simp [writeFile, hopen, hc, herase]
  · have hnone : st.blobs.find? (fun b => b.1 = st.nextId) = none := by
      rw [List.find?_eq_none]
      intro b hb
      simp only [decide_eq_true_eq]
      exact Nat.ne_of_lt (hfresh.1 b hb)
    simp [blobFind, hnone]
  · intro dfts mjs hd hm hfp
    have hfe :
        Catalog.create cfg st.catalog
          ⟨p, st.nextId, cfg.md5 d, opts.mimeType, d.length, opts.description,
           opts.metadata⟩ st.now = .error (.fileExists p) :=
      create_dup_fullpath hd hm hfp
    exact Except.error.inj (hc.symm.trans hfe)

/-- Witness for C5: writing `"a"` on the one-file fixture collides on the
primary key, and `writeFile` discards the staged blob `1` and surfaces
`FileExists`. -/
theorem c5_writeFile_catalog_failure_witness :
    exampleState.opened = true ∧
    Fresh exampleState ∧
    Catalog.create exampleCfg exampleState.catalog
        ⟨"a", 1, exampleCfg.md5 [4], none, 1, none, none⟩ exampleState.now =
      .error (.fileExists "a") ∧
    (writeFile exampleCfg exampleState "a" [4] ⟨none, none, none⟩ =
       (.error (.fileExists "a"), { exampleState with nextId := 2 },
        [.blobCreate 1, .blobRemove 1]) ∧
     blobFind exampleState.blobs 1 = none ∧
     (∀ dfts mjs, descCreateField exampleCfg none = .ok dfts →
        metaCreateField exampleCfg none = .ok mjs →
        exampleState.catalog.rows.any (fun r => r.fullpath = "a") = true →
        (.fileExists "a" : Err) = .fileExists "a")) :=
  ⟨rfl, by decide, rfl,
   c5_writeFile_catalog_failure exampleCfg exampleState "a" [4] ⟨none, none, none⟩
     (.fileExists "a") rfl (by decide) rfl⟩

/-- Claim C9: the catalog bounds `desc_raw` by `⌊maxDescriptionSize/2⌋`
and `meta_js` by `maxMetadataJsonSize` (the source even enforces half
that): `create` and `update` preserve the invariant on every row, and
both reject oversize description and metadata inputs with the validation
error before touching any row. -/
theorem c9_size_bounds (cfg : Cfg) :
    (∀ st inp now c, SizeInv cfg st → create cfg st inp now = .ok c → SizeInv cfg c) ∧
    (∀ st inp now st', SizeInv cfg st → update cfg st inp now = .ok st' →
       SizeInv cfg st') ∧
    (∀ st inp now s, inp.description = some s →
       cfg.maxDescriptionSize / 2 < s.length →
       create cfg st inp now = .error .sizeLimit) ∧
    (∀ st inp now m, inp.description = none → inp.metadata = some m →
       cfg.maxMetadataJsonSize / 2 < (cfg.jsonStringify m).length →
       create cfg st inp now = .error .sizeLimit) ∧
    (∀ st inp now s, inp.description = some (some s) →
       cfg.maxDescriptionSize / 2 < s.length →
       update cfg st inp now = .error .sizeLimit) ∧
    (∀ st inp now m, inp.description = none → inp.metadata = some (some m) →
       cfg.maxMetadataJsonSize / 2 < (cfg.jsonStringify m).length →
       update cfg st inp now = .error .sizeLimit) := by
  refine ⟨?_, ?_, ?_, ?_, ?_, ?_⟩
  · intro st inp now c hinv h
    obtain ⟨_, _, dfts, mjs, hd, hm, hrows⟩ := create_ok_spec h
    intro r hr
    rw [hrows] at hr
    rcases List.mem_append.mp hr with hr | hr
    · exact hinv r hr
    · have hreq : r = _ := List.mem_singleton.mp hr
      subst hreq
      constructor
      · intro s hs
        exact descCreateField_ok_bound hd s hs
      · intro j hj
        exact le_trans (metaCreateField_ok_bound hm j hj) (Nat.div_le_self _ 2)
  · intro st inp now st' hinv h
    rcases update_ok_spec h with ⟨_, h1⟩ | ⟨_, _, df, mf, hd, hm, hrows⟩
    · rw [h1]
      exact hinv
    · intro r hr
      rw [hrows] at hr
      rcases List.mem_map.mp hr with ⟨r0, hr0, heq⟩
      by_cases hm0 : updMatches inp r0 = true
      · rw [if_pos hm0] at heq
        subst heq
        constructor
        · intro s hs
          simp only [applyUpdate] at hs
          cases hdf : df with
          | none =>
              rw [hdf] at hs
              simp at hs
              exact (hinv r0 hr0).1 s hs
          | some pr =>
              obtain ⟨dnew, fnew⟩ := pr
              rw [hdf] at hs
              simp at hs
              exact updateDescField_ok_bound hd s fnew (by rw [hdf, hs])
        · intro j hj
          simp only [applyUpdate] at hj
          cases hmf2 : mf with
          | none =>
              rw [hmf2] at hj
              simp at hj
              exact (hinv r0 hr0).2 j hj
          | some mv =>
              rw [hmf2] at hj
              simp at hj
              refine le_trans (updateMetaField_ok_bound hm j ?_) (Nat.div_le_self _ 2)
              rw [hmf2, hj]
      · rw [if_neg hm0] at heq
        subst heq
        exact hinv r0 hr0
  · intro st inp now s hdesc hlen
    have hnl : ¬ s.length ≤ cfg.maxDescriptionSize / 2 := not_le.mpr hlen
    have hd : descCreateField cfg inp.description = .error .sizeLimit := by
      simp [descCreateField, hdesc, toFtsStr, parseDescRaw, sizeLimited, hnl]
    simp [create, hd]
  · intro st inp now m hdesc hmeta hlen
    have hnl : ¬ (cfg.jsonStringify m).length ≤ cfg.maxMetadataJsonSize / 2 :=
      not_le.mpr hlen
    have hd : descCreateField cfg inp.description = .ok none := by
      simp [descCreateField, hdesc]
    have hm : metaCreateField cfg inp.metadata = .error .sizeLimit := by
      simp [metaCreateField, hmeta, stringifyMeta, sizeLimited, hnl]
    simp [create, hd, hm]
  · intro st inp now s hdesc hlen
    have hnl : ¬ s.length ≤ cfg.maxDescriptionSize / 2 := not_le.mpr hlen
    have hall : inp.allUndefined = false := by
      simp [UpdateInput.allUndefined, hdesc]
    have hd : updateDescField cfg inp.description = .error .sizeLimit := by
      simp [updateDescField, hdesc, toFtsStr, parseDescRaw, sizeLimited, hnl]
    simp [update, hall, hd]
  · intro st inp now m hdesc hmeta hlen
    have hnl : ¬ (cfg.jsonStringify m).length ≤ cfg.maxMetadataJsonSize / 2 :=
      not_le.mpr hlen
    have hall : inp.allUndefined = false := by
      simp [UpdateInput.allUndefined, hmeta]
    have hd : updateDescField cfg inp.description = .ok none := by
      simp [updateDescField, hdesc]
    have hm : updateMetaField cfg inp.metadata = .error .sizeLimit := by
      simp [updateMetaField, hmeta, stringifyMeta, sizeLimited, hnl]
    simp [update, hall, hd, hm]

/-- Witness for C9 with `maxDescriptionSize = 16`: an 18-character
description is rejected by `create`, and `create` on the empty catalog
preserves the size invariant. -/
theorem c9_size_bounds_witness :
    ((⟨"a", 1, "c", none, 1, some "AAAAAAAAAAAAAAAAAA", none⟩ :
        CreateInput).description = some "AAAAAAAAAAAAAAAAAA" ∧
     exampleCfg.maxDescriptionSize / 2 < ("AAAAAAAAAAAAAAAAAA" : String).length ∧
     create exampleCfg ⟨[]⟩ ⟨"a", 1, "c", none, 1, some "AAAAAAAAAAAAAAAAAA", none⟩ 0 =
       .error .sizeLimit) ∧
    (SizeInv exampleCfg ⟨[]⟩ ∧
     create exampleCfg ⟨[]⟩ ⟨"a", 1, "c", none, 1, some "AAAAAAAA", none⟩ 0 =
       .ok ⟨[⟨"a", ["a"], 1, "c", "text/plain", 1, 0, some "AAAAAAAA",
              some "AAAAAAAA", none⟩]⟩ ∧
     SizeInv exampleCfg ⟨[⟨"a", ["a"], 1, "c", "text/plain", 1, 0, some "AAAAAAAA",
              some "AAAAAAAA", none⟩]⟩) :=
  ⟨⟨rfl, by decide,
    (c9_size_bounds exampleCfg).2.2.1 ⟨[]⟩
      ⟨"a", 1, "c", none, 1, some "AAAAAAAAAAAAAAAAAA", none⟩ 0 "AAAAAAAAAAAAAAAAAA"
      rfl (by decide)⟩,
   ⟨fun r hr => absurd hr (List.not_mem_nil r), rfl,
    (c9_size_bounds exampleCfg).1 ⟨[]⟩
      ⟨"a", 1, "c", none, 1, some "AAAAAAAA", none⟩ 0 _
      (fun r hr => absurd hr (List.not_mem_nil r)) rfl⟩⟩

/-- Claim C1: after a successful `writeFile(p, d, opts)` on an open
manager whose id generator is fresh, `readFile(p)` succeeds without
changing the state and returns a `File` whose size is `|d|`, whose
checksum is `MD5(d)`, whose MIME type is `opts.mimeType` when provided
and otherwise the type inferred from the basename of `p`, and whose
content is exactly the bytes `d`. -/
theorem c1_writeFile_readFile (cfg : Cfg) (st : MState) (p : String) (d : List Nat)
    (opts : WriteOpts) {ident : FileIdent} {st' : MState} {tr : List Ev}
    (hfresh : Fresh st)
    (hw : writeFile cfg st p d opts = (.ok ident, st', tr)) :
    readFile st' p =
      (.ok ⟨cfg.md5 d, opts.mimeType.getD (getMimeTypeD cfg (basenameOf p)), d.length,
            st.now, d⟩,
       st', [.catRead p, .blobOpen st.nextId]) := by
  by_cases hopen : st.opened = true
  case neg => simp [writeFile, hopen] at hw
  cases hcr : Catalog.create cfg st.catalog
      ⟨p, st.nextId, cfg.md5 d, opts.mimeType, d.length, opts.description, opts.metadata⟩
      st.now with
  | error e => simp [writeFile, hopen, hcr] at hw
  | ok c =>
      obtain ⟨hfp, _, dfts, mjs, _, _, hrows⟩ := create_ok_spec hcr
      have hw' : (⟨true, c, st.blobs ++ [(st.nextId, d)], st.nextId + 1,
          st.now⟩ : MState) = st' :=
        (by simpa [writeFile, hopen, hcr] using hw :
          (⟨cfg.bucketName, p⟩ : FileIdent) = ident ∧
          (⟨true, c, st.blobs ++ [(st.nextId, d)], st.nextId + 1, st.now⟩ : MState) = st' ∧
          [Ev.blobCreate st.nextId, Ev.catInsert p] = tr).2.1
      subst hw'
      have hfindall : ∀ r ∈ st.catalog.rows,
          (fun r : FileRow => decide (r.fullpath = p)) r = false := by
        intro r hr
        rcases List.any_eq_false.mp hfp r hr with h
        simpa using h
      have hfind : c.rows.find? (fun r => r.fullpath = p) =
          some ⟨p, segmentsOf p, st.nextId, cfg.md5 d,
            opts.mimeType.getD (getMimeTypeD cfg (basenameOf p)), d.length, st.now,
            opts.description, dfts, mjs⟩ := by
        rw [hrows, find?_append_left_none _ _ _ hfindall]
        simp [List.find?]
      have hblob := blobFind_append_fresh st.blobs st.nextId d hfresh.1
      simp [readFile, hopen, Catalog.read, hfind, hblob]

/-- Witness for C1: write three bytes to `"ab"` in the empty fixture and
read them back. -/
theorem c1_writeFile_readFile_witness :
    Fresh emptyState ∧
    readFile (writeFile exampleCfg emptyState "ab" [1, 2, 3] ⟨none, none, none⟩).2.1 "ab" =
      (.ok ⟨exampleCfg.md5 [1, 2, 3],
            (⟨none, none, none⟩ : WriteOpts).mimeType.getD
              (getMimeTypeD exampleCfg (basenameOf "ab")),
            ([1, 2, 3] : List Nat).length, emptyState.now, [1, 2, 3]⟩,
       (writeFile exampleCfg emptyState "ab" [1, 2, 3] ⟨none, none, none⟩).2.1,
       [.catRead "ab", .blobOpen emptyState.nextId]) :=
  ⟨by decide,
   c1_writeFile_readFile exampleCfg emptyState "ab" [1, 2, 3] ⟨none, none, none⟩
     (by decide) rfl⟩

/-- Counterexample to claim C6: `removeFile` on an existing file removes
the blob before it deletes the catalog row — in the execution below the
trace is `catRead`, then `blobRemove 0` (while the row for `"a"`, which
names entity `0`, is still present), and only then `catDelete` — so a
delete operation does remove the blob while the catalog row still
exists, contradicting the claim that a blob is deleted only after its
row. -/
theorem c6_removeFile_order :
    removeFile exampleState "a" =
      (.ok (), ⟨true, ⟨[]⟩, [], 1, 5⟩, [.catRead "a", .blobRemove 0, .catDelete "a"]) ∧
    (removeFile exampleState "a").2.2.get? 1 = some (.blobRemove 0) ∧
    (removeFile exampleState "a").2.2.get? 2 = some (.catDelete "a") ∧
    exampleState.catalog.rows.any (fun r => r.fullpath = "a" ∧ r.entityid = 0) = true :=
  ⟨rfl, rfl, rfl, rfl⟩

/-- Claim C6 as amended: a blob is created before its catalog row is
inserted (`writeFile`: blob write, then insert) and before the row is
updated to it (`overwriteFile` with data: read, blob write, update, and
only then removal of the old blob); but `removeFile` removes the blob
*before* deleting the catalog row (its successful trace is read, blob
removal, then row deletion — or no row deletion at all when that cleanup
fails, which is only logged). -/
theorem c6_blob_row_order :
    (∀ (cfg : Cfg) (st : MState) (p : String) (d : List Nat) (opts : WriteOpts)
       (ident : FileIdent) (st' : MState) (tr : List Ev),
       writeFile cfg st p d opts = (.ok ident, st', tr) →
       tr = [.blobCreate st.nextId, .catInsert p]) ∧
    (∀ (cfg : Cfg) (st : MState) (p : String) (view : List Nat)
       (mt : Option String) (ds : Option (Option String)) (md : Option (Option String))
       (ident : FileIdent) (st' : MState) (tr : List Ev),
       overwriteFile cfg st p ⟨some view, mt, ds, md⟩ = (.ok ident, st', tr) →
       ∃ oldId, tr = [.catRead p, .blobCreate st.nextId, .catUpdate p, .blobRemove oldId]) ∧
    (∀ (st : MState) (p : String) (st' : MState) (tr : List Ev),
       removeFile st p = (.ok (), st', tr) →
       ∃ eid, tr = [.catRead p, .blobRemove eid, .catDelete p] ∨
              tr = [.catRead p, .blobRemove eid]) := by
  refine ⟨?_, ?_, ?_⟩
  · intro cfg st p d opts ident st' tr hw
    by_cases hopen : st.opened = true
    case neg => simp [writeFile, hopen] at hw
    cases hcr : Catalog.create cfg st.catalog
        ⟨p, st.nextId, cfg.md5 d, opts.mimeType, d.length, opts.description, opts.metadata⟩
        st.now with
    | error e => simp [writeFile, hopen, hcr] at hw
    | ok c =>
        simp [writeFile, hopen, hcr] at hw
        exact hw.2.2.symm
  · intro cfg st p view mt ds md ident st' tr hw
    by_cases hopen : st.opened = true
    case neg => simp [overwriteFile, hopen] at hw
    cases hre : Catalog.readEntityId st.catalog p with
    | error e => simp [overwriteFile, hopen, OverwriteOpts.allUndefined, hre] at hw
    | ok oldId =>
        cases hup : Catalog.update cfg st.catalog
            ⟨p, some st.nextId, some oldId, some (cfg.md5 view), mt,
             some view.length, ds, md⟩ st.now with
        | error e => simp [overwriteFile, hopen, OverwriteOpts.allUndefined, hre, hup] at hw
        | ok c =>
            simp [overwriteFile, hopen, OverwriteOpts.allUndefined, hre, hup] at hw
            exact ⟨oldId, hw.2.2.symm⟩
  · intro st p st' tr hw
    by_cases hopen : st.opened = true
    case neg => simp [removeFile, hopen] at hw
    cases hre : Catalog.readEntityId st.catalog p with
    | error e => simp [removeFile, hopen, hre] at hw
    | ok eid =>
        cases hb : blobFind st.blobs eid with
        | none =>
            cases hdel : Catalog.delete st.catalog p with
            | ok c => simp [removeFile, hopen, hre, hb, hdel] at hw
            | error e => simp [removeFile, hopen, hre, hb, hdel] at hw
        | some bytes =>
            cases hdel : Catalog.delete
                ({ st with blobs := blobErase st.blobs eid } : MState).catalog p with
            | ok c =>
                simp [removeFile, hopen, hre, hb, hdel] at hw
                exact ⟨eid, Or.inl hw.2.symm⟩
            | error e =>
                simp [removeFile, hopen, hre, hb, hdel] at hw
                exact ⟨eid, Or.inr hw.2.symm⟩

/-- Witness for the amended C6: the `writeFile` and `removeFile`
conjuncts applied to concrete executions on the fixtures. -/
theorem c6_blob_row_order_witness :
    ((writeFile exampleCfg emptyState "ab" [1, 2] ⟨none, none, none⟩).2.2 =
       [.blobCreate emptyState.nextId, .catInsert "ab"]) ∧
    (∃ eid, (removeFile exampleState "a").2.2 = [.catRead "a", .blobRemove eid, .catDelete "a"] ∨
            (removeFile exampleState "a").2.2 = [.catRead "a", .blobRemove eid]) :=
  ⟨c6_blob_row_order.1 exampleCfg emptyState "ab" [1, 2] ⟨none, none, none⟩
     ⟨"test", "ab"⟩ (writeFile exampleCfg emptyState "ab" [1, 2] ⟨none, none, none⟩).2.1
     (writeFile exampleCfg emptyState "ab" [1, 2] ⟨none, none, none⟩).2.2 rfl,
   c6_blob_row_order.2.2 exampleState "a"
     (removeFile exampleState "a").2.1 (removeFile exampleState "a").2.2 rfl⟩

end Mopfs

